import Mathlib

/-!
# Verification of the zhmcclient resource/manager property-caching core

Shallow embedding of `src/zhmcclient/_resource.py` (class `BaseResource`)
and `src/zhmcclient/_hba.py` (classes `HbaManager`, `Hba`).

Python dictionaries are modelled as association lists with Python's
assignment/update semantics; transport sessions are modelled as response
oracles; the mutually recursive pair `get_property` /
`pull_full_properties` is modelled with explicit fuel (a `none` result
for every fuel amount means the Python code recurses without bound).
Each operation returns, besides its Python result (a normal return or a
raised exception, via `Except`), the updated resource state and the
number of transport calls it issued.
-/

/-- An atomic Python/JSON value. -/
inductive Scalar where
  | null : Scalar
  | str (s : String) : Scalar
  | num (n : Int) : Scalar
  | sbool (b : Bool) : Scalar
deriving DecidableEq, Repr

/-- A loosely typed Python/JSON value, as stored in resource property
dictionaries: a scalar ("string, number, boolean" plus `None`) or a
sequence.  Sequence elements are modelled as scalars: the sequences the
claims exercise are URI lists and filter-criteria value sets, whose
elements are atomic. -/
inductive Value where
  | null : Value
  | str (s : String) : Value
  | num (n : Int) : Value
  | vbool (b : Bool) : Value
  | vlist (xs : List Scalar) : Value
deriving DecidableEq, Repr

/-- Embedding of a sequence element back into `Value`. -/
def Scalar.toValue : Scalar → Value
  | .null => .null
  | .str s => .str s
  | .num n => .num n
  | .sbool b => .vbool b

/-- Python truthiness (`if uris:` in `HbaManager.list`). -/
def Value.isTruthy : Value → Bool
  | .null => false
  | .str s => !s.isEmpty
  | .num n => n != 0
  | .vbool b => b
  | .vlist xs => !xs.isEmpty

/-- Transport-level errors documented on the operations of
`BaseResource`, `HbaManager` and `Hba`: `zhmcclient.HTTPError`,
`ParseError`, `AuthError`, `ConnectionError`. -/
inductive TransportError where
  | http
  | parse
  | auth
  | conn
deriving DecidableEq, Repr

/-- A raised Python exception as observable from this layer:
`KeyError` (the spec's PropertyNotFound), `TypeError`,
`AssertionError` (raised by `Hba.__init__`), or a propagated transport
error. -/
inductive PyError where
  | keyError (name : String)
  | typeError
  | assertionError
  | transport (e : TransportError)
deriving DecidableEq, Repr

/-- Python string concatenation `uri + suffix` (used to build request
paths); concatenating onto a non-string raises `TypeError`. -/
def Value.addStr : Value → String → Except PyError Value
  | .str t, s => .ok (.str (t ++ s))
  | _, _ => .error .typeError

/-- Python iteration (`for uri in uris:`): lists yield their elements,
strings yield their one-character substrings, other values raise
`TypeError`. -/
def Value.iterate : Value → Except PyError (List Value)
  | .vlist xs => .ok (xs.map Scalar.toValue)
  | .str s => .ok (s.toList.map fun c => .str (String.singleton c))
  | _ => .error .typeError

/-- A Python dict with string keys, as an association list.  All
operations below keep keys unique, mirroring dict semantics. -/
def Dict := List (String × Value)
deriving DecidableEq, Repr

/-- Dict lookup: `d[k]` / `d.get(k)` (as an `Option`). -/
def Dict.find : Dict → String → Option Value
  | [], _ => none
  | (k, v) :: rest, key => if k = key then some v else Dict.find rest key

/-- Dict assignment `d[k] = v`: replaces the value in place if the key
exists, appends otherwise. -/
def Dict.insert : Dict → String → Value → Dict
  | [], key, val => [(key, val)]
  | (k, v) :: rest, key, val =>
    if k = key then (k, val) :: rest else (k, v) :: Dict.insert rest key val

/-- `d.update(other)`: Python's in-place dict merge, the values of
`other` winning on key collisions. -/
def Dict.update (d : Dict) (other : Dict) : Dict :=
  other.foldl (fun acc kv => acc.insert kv.1 kv.2) d

/-- The keys of `other` are pairwise distinct (true of every dict that
Python's transport layer can deliver). -/
def Dict.NodupKeys (d : Dict) : Prop := (d.map Prod.fst).Nodup

instance : DecidablePred Dict.NodupKeys := fun d =>
  inferInstanceAs (Decidable (d.map Prod.fst).Nodup)

/-- The transport collaborator (`self.manager.session`): response
oracles for `get`, `post` and `delete`.  URIs are `Value`s because the
code passes property values straight through as URIs. -/
structure Session where
  get : Value → Except TransportError Dict
  post : Value → Dict → Except TransportError Dict
  sdelete : Value → Except TransportError Unit

/-- The mutable state of a `BaseResource` set by
`BaseResource.__init__` (`_resource.py` lines 67-70): `_properties`,
`_properties_timestamp`, `_full_properties`.  The `_manager`
back-reference is represented by passing the shared `Session` to each
operation explicitly. -/
structure Resource where
  properties : Dict
  properties_timestamp : Nat
  full_properties : Bool
deriving DecidableEq, Repr

/-- The two mutually recursive resource operations, as one fueled
function (`get_property` calls `pull_full_properties` on a miss, and
`pull_full_properties` starts with `self.get_property('object-uri')`). -/
inductive Req where
  | getProperty (name : String)
  | pullFullProperties
deriving DecidableEq, Repr

/-- One fueled run of `BaseResource.get_property` (lines 135-161) or
`BaseResource.pull_full_properties` (lines 117-133).  `now` is the
value of `int(time.time())`.  Returns `none` when the fuel runs out
(the Python code recurses more deeply than `fuel`); otherwise the
result (`pull_full_properties` returns Python `None`, i.e. `.null`),
the updated resource state, and the number of transport calls made. -/
def BaseResource.run (sess : Session) (now : Nat) :
    Nat → Req → Resource → Option (Except PyError Value × Resource × Nat)
  | 0, _, _ => none
  | fuel + 1, .getProperty name, r =>
    -- try: return self._properties[name]
    match r.properties.find name with
    | some v => some (.ok v, r, 0)
    | none =>
      -- except KeyError: if self.full_properties: raise
      if r.full_properties then some (.error (.keyError name), r, 0)
      else
        -- self.pull_full_properties(); return self._properties[name]
        match BaseResource.run sess now fuel .pullFullProperties r with
        | none => none
        | some (.error e, r', k) => some (.error e, r', k)
        | some (.ok _, r', k) =>
          match r'.properties.find name with
          | some v => some (.ok v, r', k)
          | none => some (.error (.keyError name), r', k)
  | fuel + 1, .pullFullProperties, r =>
    -- uri = self.get_property('object-uri')
    match BaseResource.run sess now fuel (.getProperty "object-uri") r with
    | none => none
    | some (.error e, r', k) => some (.error e, r', k)
    | some (.ok uri, r', k) =>
      -- full_properties = self.manager.session.get(uri)
      match sess.get uri with
      | .error te => some (.error (.transport te), r', k + 1)
      | .ok full_properties =>
        -- self._properties = dict(full_properties); refresh timestamp; flag
        some (.ok .null,
              { properties := full_properties,
                properties_timestamp := now,
                full_properties := true },
              k + 1)

deriving instance DecidableEq for Except

/-- `BaseResource.get_property(name)` (`_resource.py` lines 135-161). -/
def BaseResource.get_property (sess : Session) (now fuel : Nat) (r : Resource)
    (name : String) : Option (Except PyError Value × Resource × Nat) :=
  BaseResource.run sess now fuel (.getProperty name) r

/-- `BaseResource.pull_full_properties()` (`_resource.py` lines 117-133). -/
def BaseResource.pull_full_properties (sess : Session) (now fuel : Nat)
    (r : Resource) : Option (Except PyError Value × Resource × Nat) :=
  BaseResource.run sess now fuel .pullFullProperties r

/-- `get_property`, applied at `r`, never returns for any amount of
fuel: the Python original recurses without bound (it would die with a
`RecursionError` rather than answer). -/
def GetPropertyDiverges (sess : Session) (now : Nat) (r : Resource)
    (name : String) : Prop :=
  ∀ fuel, BaseResource.get_property sess now fuel r name = none

/-- Number of transport calls reported by a finished run (`0` for an
unfinished one). -/
def callCount : Option (Except PyError Value × Resource × Nat) → Nat
  | some (_, _, k) => k
  | none => 0

-- A session used for concrete evaluations in examples below.
def sessEmpty : Session where
  get := fun _ => .error .conn
  post := fun _ _ => .error .conn
  sdelete := fun _ => .error .conn

/-- Modelled from the spec: the parent scope of an `HbaManager` — a
Partition resource (class `Partition` is not under `src/`).  Per the
spec, a Resource carries a stable identity URI, immutable after
construction, next to its property snapshot; `HbaManager.list` reads
the snapshot via `get_property` and `HbaManager.create` posts to a
path built from the identity URI (`self.partition.uri`). -/
structure Partition where
  uri : Value
  res : Resource
deriving DecidableEq, Repr

/-- `HbaManager` (`_hba.py` lines 34-68), the manager scoped to the
HBAs of one Partition.  Its `BaseManager.__init__` configuration
(`resource_class=Hba`, `uri_prop='element-uri'`, `name_prop='name'`,
`query_props=[]`) is fixed and carried implicitly; the shared
`Session` is passed to each operation explicitly. -/
structure HbaManager where
  partition : Partition
deriving DecidableEq, Repr

/-- The `manager` argument passed to `Hba.__init__`: either an actual
`HbaManager`, or an object of any other type (what the `isinstance`
check rejects). -/
inductive ManagerArg where
  | hbaManager (m : HbaManager)
  | otherManager
deriving DecidableEq, Repr

/-- An `Hba` resource object: identity URI, name, and the inherited
`BaseResource` snapshot state. -/
structure Hba where
  uri : Value
  name : Option Value
  res : Resource
deriving DecidableEq, Repr

/-- Modelled from the spec: the `BaseResource` constructor that
`Hba.__init__` invokes as `super().__init__(manager, uri, name,
properties)`.  `src/zhmcclient/_resource.py`'s `BaseResource.__init__`
takes `(manager, properties)` only and sets no `_uri`/`_name`, while
`_hba.py` passes four arguments and later reads `self._uri`; the
four-argument constructor `_hba.py` relies on is therefore missing
from `src/`.  Per the spec: the identity URI is set at construction
and immutable; `properties` "may be `None` or empty"; the input
dictionary is copied; `isComplete` starts false; `snapshotTime` is set
at construction. -/
def Hba.mkBare (uri : Value) (name : Option Value) (properties : Option Dict)
    (now : Nat) : Hba :=
  { uri := uri, name := name,
    res := { properties := properties.getD [],
             properties_timestamp := now,
             full_properties := false } }

/-- `Hba.__init__` (`_hba.py` lines 180-195): raises `AssertionError`
unless `manager` is an `HbaManager`, then defers to the base
constructor. -/
def Hba.init (manager : ManagerArg) (uri : Value) (name : Option Value)
    (properties : Option Dict) (now : Nat) : Except PyError Hba :=
  match manager with
  | .hbaManager _ => .ok (Hba.mkBare uri name properties now)
  | .otherManager => .error .assertionError

/-- Modelled from the spec: the per-criterion match test of
`BaseManager._matches_filters` (class `BaseManager` in `_manager.py`
is not under `src/`): the candidate's value matches when it "equals
(or is a member of) the required value". -/
def filterValueMatches (actual required : Value) : Bool :=
  match required with
  | .vlist xs =>
    decide (actual = required) || (xs.map Scalar.toValue).any fun x => decide (x = actual)
  | _ => decide (actual = required)

/-- Modelled from the spec: the criterion loop of
`BaseManager._matches_filters` — each criterion key is looked up on
the candidate via `get_property` (which may lazily fetch), a lookup
failure propagates and aborts the whole `list` call, and the candidate
matches iff every criterion matches. -/
def matchesLoop (sess : Session) (now fuel : Nat) :
    Resource → List (String × Value) → Option (Except PyError Bool × Resource × Nat)
  | r, [] => some (.ok true, r, 0)
  | r, (key, required) :: rest =>
    match BaseResource.get_property sess now fuel r key with
    | none => none
    | some (.error e, r', k) => some (.error e, r', k)
    | some (.ok actual, r', k) =>
      if filterValueMatches actual required then
        match matchesLoop sess now fuel r' rest with
        | none => none
        | some (res, r'', k2) => some (res, r'', k + k2)
      else some (.ok false, r', k)

/-- Modelled from the spec: `BaseManager._matches_filters(obj,
filter_args)` (not under `src/`): `None` filter args match every
candidate; otherwise every criterion in the mapping must match. -/
def matches_filters (sess : Session) (now fuel : Nat) (r : Resource)
    (filter_args : Option Dict) : Option (Except PyError Bool × Resource × Nat) :=
  match filter_args with
  | none => some (.ok true, r, 0)
  | some criteria => matchesLoop sess now fuel r criteria

/-- The `for uri in uris` loop of `HbaManager.list` (`_hba.py` lines
107-118): construct a bare `Hba` per URI, keep it when it passes the
filters (with the filter's lazy-fetch side effects on its snapshot),
and pull its full properties when `full_properties` is set.  Returns
the surviving resources in loop order plus the transport-call count,
`none` if some lazy fetch ran out of fuel. -/
def HbaManager.listLoop (sess : Session) (now fuel : Nat) (m : HbaManager)
    (full_properties : Bool) (filter_args : Option Dict) :
    List Value → Option (Except PyError (List Hba) × Nat)
  | [] => some (.ok [], 0)
  | uri :: rest =>
    -- resource_obj = self.resource_class(manager=self, uri=uri, name=None, properties=None)
    match Hba.init (.hbaManager m) uri none none now with
    | .error e => some (.error e, 0)
    | .ok resource_obj =>
      -- if self._matches_filters(resource_obj, filter_args):
      match matches_filters sess now fuel resource_obj.res filter_args with
      | none => none
      | some (.error e, _, k) => some (.error e, k)
      | some (.ok matched, r', k) =>
        if matched then
          if full_properties then
            -- resource_obj_list.append(resource_obj); resource_obj.pull_full_properties()
            match BaseResource.pull_full_properties sess now fuel r' with
            | none => none
            | some (.error e, _, k2) => some (.error e, k + k2)
            | some (.ok _, r'', k2) =>
              match HbaManager.listLoop sess now fuel m full_properties filter_args rest with
              | none => none
              | some (.error e, k3) => some (.error e, k + k2 + k3)
              | some (.ok objs, k3) =>
                some (.ok ({ resource_obj with res := r'' } :: objs), k + k2 + k3)
          else
            match HbaManager.listLoop sess now fuel m full_properties filter_args rest with
            | none => none
            | some (.error e, k3) => some (.error e, k + k3)
            | some (.ok objs, k3) =>
              some (.ok ({ resource_obj with res := r' } :: objs), k + k3)
        else
          match HbaManager.listLoop sess now fuel m full_properties filter_args rest with
          | none => none
          | some (res, k3) => some (res, k + k3)

/-- `HbaManager.list(full_properties, filter_args)` (`_hba.py` lines
70-119).  Returns the result (the listed resources, or the raised
exception), the manager with its parent Partition's possibly-updated
snapshot, and the number of transport calls issued. -/
def HbaManager.list (sess : Session) (now fuel : Nat) (m : HbaManager)
    (full_properties : Bool) (filter_args : Option Dict) :
    Option (Except PyError (List Hba) × HbaManager × Nat) :=
  -- uris = self.partition.get_property('hba-uris')
  match BaseResource.get_property sess now fuel m.partition.res "hba-uris" with
  | none => none
  | some (.error e, p', k) =>
    some (.error e, { partition := { m.partition with res := p' } }, k)
  | some (.ok uris, p', k) =>
    let m' : HbaManager := { partition := { m.partition with res := p' } }
    -- if uris: for uri in uris: ...
    if uris.isTruthy then
      match uris.iterate with
      | .error e => some (.error e, m', k)
      | .ok uriList =>
        match HbaManager.listLoop sess now fuel m' full_properties filter_args uriList with
        | none => none
        | some (.error e, k2) => some (.error e, m', k + k2)
        | some (.ok objs, k2) => some (.ok objs, m', k + k2)
    else some (.ok [], m', k)

/-- `HbaManager.create(properties)` (`_hba.py` lines 121-161): post
the input properties to the partition's `/hbas` path, overlay the
response over a copy of the input (response values winning), and
construct the new `Hba` from the merged dict's `element-uri`. -/
def HbaManager.create (sess : Session) (now : Nat) (m : HbaManager)
    (properties : Dict) : Except PyError Hba :=
  -- result = self.session.post(self.partition.uri + '/hbas', body=properties)
  match Value.addStr m.partition.uri "/hbas" with
  | .error e => .error e
  | .ok path =>
    match sess.post path properties with
    | .error te => .error (.transport te)
    | .ok result =>
      -- props = properties.copy(); props.update(result)
      let props := Dict.update properties result
      -- return Hba(self, props['element-uri'], None, props)
      match props.find "element-uri" with
      | none => .error (.keyError "element-uri")
      | some uri => Hba.init (.hbaManager m) uri none (some props) now

/-- `Hba.delete()` (`_hba.py` lines 197-213): one `session.delete` on
the HBA's URI; the local snapshot is untouched. -/
def Hba.delete (sess : Session) (h : Hba) : Except PyError Unit × Hba × Nat :=
  match sess.sdelete h.uri with
  | .ok _ => (.ok (), h, 1)
  | .error te => (.error (.transport te), h, 1)

/-- `Hba.update_properties(properties)` (`_hba.py` lines 215-241): one
`session.post` on the HBA's URI; the response is discarded and the
local snapshot untouched. -/
def Hba.update_properties (sess : Session) (h : Hba) (properties : Dict) :
    Except PyError Unit × Hba × Nat :=
  match sess.post h.uri properties with
  | .ok _ => (.ok (), h, 1)
  | .error te => (.error (.transport te), h, 1)

/-- `Hba.reassign_port(port)` (`_hba.py` lines 243-271): one
`session.post` to the HBA's reassign-operation path with body
`{'adapter-port-uri': port.uri}`; the local snapshot is untouched. -/
def Hba.reassign_port (sess : Session) (h : Hba) (portUri : Value) :
    Except PyError Unit × Hba × Nat :=
  let body : Dict := [("adapter-port-uri", portUri)]
  match Value.addStr h.uri "/operations/reassign-storage-adapter-port" with
  | .error e => (.error e, h, 0)
  | .ok target =>
    match sess.post target body with
    | .ok _ => (.ok (), h, 1)
    | .error te => (.error (.transport te), h, 1)

/-- A tiny heap of dictionaries, giving Python dict objects an
identity so that copying versus aliasing becomes observable. -/
structure Store where
  cells : List Dict
deriving DecidableEq, Repr

/-- Dereference a dict object. -/
def Store.read (st : Store) (ref : Nat) : Dict := (st.cells.get? ref).getD []

/-- Allocate a fresh dict object. -/
def Store.alloc (st : Store) (d : Dict) : Store × Nat :=
  (⟨st.cells ++ [d]⟩, st.cells.length)

/-- Mutate a dict object in place. -/
def Store.write (st : Store) (ref : Nat) (d : Dict) : Store :=
  ⟨st.cells.set ref d⟩

/-- Heap-level `BaseResource.__init__` (`_resource.py` line 68):
`self._properties = dict(properties)` allocates a fresh dict holding a
shallow copy of the input dict; returns the new store and the
reference held in `self._properties`. -/
def BaseResource.initH (st : Store) (propsRef : Nat) : Store × Nat :=
  st.alloc (st.read propsRef)

/-- Heap-level `HbaManager.create` (`_hba.py` lines 155-161 plus the
constructor's copy), making the dict identities explicit:
`props = properties.copy()` allocates a copy, `props.update(result)`
mutates only that copy, and the constructed resource's `_properties`
is a further fresh copy (`dict(properties)` in the base constructor).
Returns the final store and, on success, the heap reference of the new
resource's property dict. -/
def HbaManager.createH (sess : Session) (m : HbaManager) (st : Store)
    (propsRef : Nat) : Store × Except PyError Nat :=
  match Value.addStr m.partition.uri "/hbas" with
  | .error e => (st, .error e)
  | .ok path =>
    match sess.post path (st.read propsRef) with
    | .error te => (st, .error (.transport te))
    | .ok result =>
      let stref := st.alloc (st.read propsRef)
      let st2 := stref.1.write stref.2 (Dict.update (stref.1.read stref.2) result)
      match (st2.read stref.2).find "element-uri" with
      | none => (st2, .error (.keyError "element-uri"))
      | some _ =>
        let strs := BaseResource.initH st2 stref.2
        (strs.1, .ok strs.2)

/-! ## Concrete fixtures used by witnesses and counterexamples -/

/-- An incomplete resource whose snapshot carries `'object-uri'`. -/
def rIncomplete : Resource := ⟨[("object-uri", .str "/p1/hbas/10")], 0, false⟩

/-- A complete resource (a full pull already happened). -/
def rComplete : Resource := ⟨[("element-uri", .str "/p1/hbas/10")], 2, true⟩

/-- A session whose `get` answers for `/p1/hbas/10` and fails otherwise. -/
def sessW : Session where
  get := fun u =>
    if u = .str "/p1/hbas/10" then
      .ok [("element-uri", .str "/p1/hbas/10"), ("name", .str "h1"),
           ("device-number", .str "01")]
    else .error .http
  post := fun _ _ => .error .http
  sdelete := fun _ => .error .http

/-- A manager whose parent Partition's (complete) snapshot lacks
`'hba-uris'` altogether. -/
def mNoUris : HbaManager :=
  { partition := { uri := .str "/p1",
                   res := ⟨[("object-uri", .str "/p1")], 0, true⟩ } }

/-- A manager whose parent Partition's snapshot holds an empty
`'hba-uris'` sequence. -/
def mEmptyUris : HbaManager :=
  { partition := { uri := .str "/p1",
                   res := ⟨[("hba-uris", .vlist [])], 0, true⟩ } }

/-- A concrete HBA object for the witnesses. -/
def hFix : Hba := Hba.mkBare (.str "/p1/hbas/10") none (some [("name", .str "h1")]) 1

/-- The Partition-scoped manager used by the create witness. -/
def mC : HbaManager :=
  { partition := { uri := .str "/api/partitions/1", res := rComplete } }

/-- A session whose `post` answers the create request with the
three-key response of Scenario D. -/
def sessC : Session where
  get := fun _ => .error .http
  post := fun path _ =>
    if path = .str "/api/partitions/1/hbas" then
      .ok [("element-uri", .str "/api/partitions/1/hbas/99"),
           ("name", .str "x"), ("type", .str "fcp")]
    else .error .http
  sdelete := fun _ => .error .http

/-- A manager whose parent lists two HBAs. -/
def mList : HbaManager :=
  { partition := { uri := .str "/p1",
                   res := ⟨[("hba-uris",
                             .vlist [.str "/p1/hbas/1", .str "/p1/hbas/2"])],
                           0, true⟩ } }

/-- The heap holding the caller's input dict for the C9 witness. -/
def stW : Store := ⟨[[("name", .str "x")]]⟩

/-- The merged dict produced by the C9 witness's create call. -/
def dictW : Dict :=
  [("name", .str "x"), ("element-uri", .str "/api/partitions/1/hbas/99"),
   ("type", .str "fcp")]

/-! ## Helper lemmas about the fueled resource operations -/

/-- When the snapshot lacks `'object-uri'` and is not complete, the
mutual recursion `get_property('object-uri')` ↔ `pull_full_properties`
never bottoms out: both runs exhaust any amount of fuel. -/
theorem run_missing_uri_diverges (sess : Session) (now : Nat) (r : Resource)
    (h1 : r.properties.find "object-uri" = none)
    (h2 : r.full_properties = false) :
    ∀ fuel, BaseResource.run sess now fuel (.getProperty "object-uri") r = none ∧
      BaseResource.run sess now fuel .pullFullProperties r = none := by
  intro fuel
  induction fuel with
  | zero => exact ⟨rfl, rfl⟩
  | succ n ih =>
    constructor
    · simp [BaseResource.run, h1, h2, ih.2]
    · simp [BaseResource.run, ih.1]

/-- `get_property(name)` on an incomplete resource that has neither
`name` nor `'object-uri'` in its snapshot diverges. -/
theorem get_property_diverges_of_missing_uri (sess : Session) (now : Nat)
    (r : Resource) (name : String)
    (h1 : r.properties.find name = none)
    (h2 : r.properties.find "object-uri" = none)
    (h3 : r.full_properties = false) :
    GetPropertyDiverges sess now r name := by
  intro fuel
  cases fuel with
  | zero => rfl
  | succ n =>
    unfold BaseResource.get_property
    simp [BaseResource.run, h1, h3, (run_missing_uri_diverges sess now r h2 h3 n).2]

/-- A successful `get_property('object-uri')` can only be a direct
cache hit: it leaves the state alone and makes no transport call. -/
theorem run_get_uri_ok (sess : Session) (now fuel : Nat) (r : Resource)
    (u : Value) (r' : Resource) (k : Nat)
    (h : BaseResource.run sess now fuel (.getProperty "object-uri") r =
      some (.ok u, r', k)) :
    r' = r ∧ k = 0 ∧ r.properties.find "object-uri" = some u := by
  cases fuel with
  | zero => simp [BaseResource.run] at h
  | succ n =>
    cases hf : r.properties.find "object-uri" with
    | some v =>
      simp [BaseResource.run, hf] at h
      obtain ⟨hvu, hrr, hk⟩ := h
      exact ⟨hrr.symm, hk.symm, by rw [hvu]⟩
    | none =>
      cases hfull : r.full_properties with
      | true => simp [BaseResource.run, hf, hfull] at h
      | false =>
        rw [(run_missing_uri_diverges sess now r hf hfull (n + 1)).1] at h
        cases h

/-- A run that ends in a propagated transport error leaves the
resource state exactly as it was. -/
theorem run_transport_error_state (sess : Session) (now : Nat) :
    ∀ fuel req r te r' k,
      BaseResource.run sess now fuel req r =
        some (.error (.transport te), r', k) → r' = r := by
  intro fuel
  induction fuel with
  | zero => intro req r te r' k h; cases h
  | succ n ih =>
    intro req r te r' k h
    cases req with
    | getProperty name =>
      rw [BaseResource.run] at h
      cases hf : r.properties.find name with
      | some v => rw [hf] at h; cases h
      | none =>
        rw [hf] at h
        cases hfull : r.full_properties with
        | true => rw [hfull] at h; simp at h
        | false =>
          rw [hfull] at h
          simp only [Bool.false_eq_true, if_false] at h
          cases hp : BaseResource.run sess now n .pullFullProperties r with
          | none => rw [hp] at h; cases h
          | some res =>
            obtain ⟨res1, r2, k2⟩ := res
            cases res1 with
            | error e =>
              rw [hp] at h
              simp at h
              obtain ⟨he, hr, hk⟩ := h
              exact hr ▸ ih .pullFullProperties r te r2 k2 (by rw [hp, he])
            | ok v =>
              rw [hp] at h
              try simp only [] at h
              cases hf2 : r2.properties.find name with
              | some w => rw [hf2] at h; cases h
              | none => rw [hf2] at h; simp at h
    | pullFullProperties =>
      rw [BaseResource.run] at h
      cases hg : BaseResource.run sess now n (.getProperty "object-uri") r with
      | none => rw [hg] at h; cases h
      | some res =>
        obtain ⟨res1, r2, k2⟩ := res
        cases res1 with
        | error e =>
          rw [hg] at h
          simp at h
          obtain ⟨he, hr, hk⟩ := h
          exact hr ▸ ih (.getProperty "object-uri") r te r2 k2 (by rw [hg, he])
        | ok u =>
          rw [hg] at h
          try simp only [] at h
          cases hs : sess.get u with
          | ok d => rw [hs] at h; cases h
          | error te2 =>
            rw [hs] at h
            simp at h
            exact h.2.1 ▸ (run_get_uri_ok sess now n r u r2 k2 hg).1

/-- On an incomplete resource whose snapshot has `'object-uri'` but
not `p`, `get_property p` performs exactly one transport call and its
outcome is fully determined by the transport's answer. -/
theorem run_single_pull_eq (sess : Session) (now fuel : Nat) (r : Resource)
    (p : String) (u : Value)
    (hfull : r.full_properties = false)
    (hp : r.properties.find p = none)
    (hu : r.properties.find "object-uri" = some u) :
    BaseResource.run sess now (fuel + 3) (.getProperty p) r =
      some (match sess.get u with
            | .ok d =>
              (match Dict.find d p with
               | some v => (.ok v, ⟨d, now, true⟩, 1)
               | none => (.error (.keyError p), ⟨d, now, true⟩, 1))
            | .error te => (.error (.transport te), r, 1)) := by
  have h3 : fuel + 3 = ((fuel + 1) + 1) + 1 := rfl
  rw [h3]
  simp only [BaseResource.run, hp, hfull, hu, Bool.false_eq_true, if_false]
  cases hs : sess.get u with
  | ok d =>
    simp only [hs]
    cases hd : Dict.find d p with
    | some v => simp [hd]
    | none => simp [hd]
  | error te => simp [hs]

/-! ## C1 — single retry on a missing property -/

/-- C1 fails as stated: this incomplete resource holds only its
identity-bearing `'element-uri'` property (an HBA has no
`'object-uri'`), and `get_property "name"` recurses forever between
`get_property('object-uri')` and `pull_full_properties`: it makes no
transport call, returns no value, raises no PropertyNotFound, and
`full_properties` never becomes true. -/
theorem claim1_counterexample :
    GetPropertyDiverges sessW 0
      ⟨[("element-uri", .str "/p1/hbas/10")], 0, false⟩ "name" :=
  get_property_diverges_of_missing_uri _ _ _ _ rfl rfl rfl

/-- C1 (amended): for every resource with `full_properties = false`
whose snapshot lacks `p` but contains the `'object-uri'` identity
property, `get_property p` issues exactly one transport call (the one
full-property pull); if the pull succeeds and `p` is present in the
pulled result it is returned, if `p` is still absent a `KeyError`
(the spec's PropertyNotFound) is raised, and in both cases
`full_properties` has become true; a failed pull propagates the
transport error with the snapshot untouched. -/
theorem claim1_single_pull_amended (sess : Session) (now fuel : Nat)
    (r : Resource) (p : String) (u : Value)
    (hfull : r.full_properties = false)
    (hp : r.properties.find p = none)
    (hu : r.properties.find "object-uri" = some u) :
    BaseResource.get_property sess now (fuel + 3) r p =
      some (match sess.get u with
            | .ok d =>
              (match Dict.find d p with
               | some v => (.ok v, ⟨d, now, true⟩, 1)
               | none => (.error (.keyError p), ⟨d, now, true⟩, 1))
            | .error te => (.error (.transport te), r, 1)) :=
  run_single_pull_eq sess now fuel r p u hfull hp hu

/-- C1 witness: a concrete single-pull run returning the pulled value
with one transport call and `full_properties = true`. -/
theorem claim1_witness :
    BaseResource.get_property sessW 9 3 rIncomplete "name" =
      some (.ok (.str "h1"),
            ⟨[("element-uri", .str "/p1/hbas/10"), ("name", .str "h1"),
              ("device-number", .str "01")], 9, true⟩, 1) :=
  (claim1_single_pull_amended sessW 9 0 rIncomplete "name" (.str "/p1/hbas/10")
    rfl rfl rfl).trans (by decide)

/-! ## C2 — atomicity of a failed full pull -/

/-- C2: when the transport call inside `pull_full_properties` fails,
the resource is exactly as it was before the call: prior `properties`,
`full_properties` (and `properties_timestamp`) are all unchanged — no
partially-mutated state is observable on error. -/
theorem claim2_pull_atomic (sess : Session) (now fuel : Nat) (r : Resource)
    (te : TransportError) (r' : Resource) (k : Nat)
    (h : BaseResource.pull_full_properties sess now fuel r =
      some (.error (.transport te), r', k)) :
    r' = r :=
  run_transport_error_state sess now fuel .pullFullProperties r te r' k h

/-- C2 witness: a concrete failing pull (connection error) whose
post-state equals the pre-state. -/
theorem claim2_witness :
    (BaseResource.pull_full_properties sessEmpty 3 2 rIncomplete =
      some (.error (.transport .conn), rIncomplete, 1)) ∧
      rIncomplete = rIncomplete :=
  ⟨by decide,
   claim2_pull_atomic sessEmpty 3 2 rIncomplete .conn rIncomplete 1 (by decide)⟩

/-! ## C3 — no double fetch once complete -/

/-- C3: on a resource with `full_properties = true`, `get_property` on
a key absent from the snapshot raises `KeyError` (PropertyNotFound)
immediately: zero transport calls, state untouched. -/
theorem claim3_no_refetch (sess : Session) (now fuel : Nat) (r : Resource)
    (p : String)
    (hfull : r.full_properties = true)
    (hp : r.properties.find p = none) :
    BaseResource.get_property sess now (fuel + 1) r p =
      some (.error (.keyError p), r, 0) := by
  unfold BaseResource.get_property
  simp [BaseResource.run, hp, hfull]

/-- C3 witness: a concrete complete resource and missing key. -/
theorem claim3_witness :
    BaseResource.get_property sessW 0 1 rComplete "name" =
      some (.error (.keyError "name"), rComplete, 0) :=
  claim3_no_refetch sessW 0 0 rComplete "name" rfl rfl

/-! ## C4 — termination with at most one round trip -/

/-- C4 fails as stated: on this resource with an empty snapshot (a
bare resource fresh from a listing is exactly such), `get_property
"description"` never terminates, whatever the recursion depth — so
`get_property` neither terminates nor performs one bounded round trip
for every resource and property name. -/
theorem claim4_counterexample :
    GetPropertyDiverges sessEmpty 0 ⟨[], 0, false⟩ "description" :=
  get_property_diverges_of_missing_uri _ _ _ _ rfl rfl rfl

/-- C4 (amended): for every resource whose snapshot contains the
`'object-uri'` identity property or whose `full_properties` flag is
already true, `get_property` terminates and performs at most one
transport round trip, for every property name. -/
theorem claim4_terminates_amended (sess : Session) (now fuel : Nat)
    (r : Resource) (p : String)
    (h : (∃ u, r.properties.find "object-uri" = some u) ∨
      r.full_properties = true) :
    (BaseResource.get_property sess now (fuel + 3) r p).isSome = true ∧
      callCount (BaseResource.get_property sess now (fuel + 3) r p) ≤ 1 := by
  unfold BaseResource.get_property
  cases hp : r.properties.find p with
  | some v =>
    simp only [show fuel + 3 = (fuel + 2) + 1 from rfl, BaseResource.run, hp]
    exact ⟨rfl, by simp [callCount]⟩
  | none =>
    cases hfull : r.full_properties with
    | true =>
      simp only [show fuel + 3 = (fuel + 2) + 1 from rfl, BaseResource.run, hp,
        hfull, if_true]
      exact ⟨rfl, by simp [callCount]⟩
    | false =>
      obtain ⟨u, hu⟩ := h.resolve_right (by simp [hfull])
      have heq := run_single_pull_eq sess now fuel r p u hfull hp hu
      rw [heq]
      cases hs : sess.get u with
      | ok d =>
        cases hd : Dict.find d p with
        | some v => simp [hd, callCount]
        | none => simp [hd, callCount]
      | error te => simp [callCount]

/-- C4 witness: a concrete terminating lookup with one transport call. -/
theorem claim4_witness :
    (BaseResource.get_property sessW 9 3 rIncomplete "device-number").isSome = true ∧
      callCount (BaseResource.get_property sessW 9 3 rIncomplete "device-number") ≤ 1 :=
  claim4_terminates_amended sessW 9 0 rIncomplete "device-number"
    (.inl ⟨.str "/p1/hbas/10", rfl⟩)

/-! ## C5 — missing versus empty child-URI property -/

/-- C5 fails as stated: when the parent has no `'hba-uris'` property
at all (here, a completed snapshot without it), `list` propagates the
`KeyError` (PropertyNotFound) from `get_property` instead of
returning an empty sequence. -/
theorem claim5_counterexample :
    HbaManager.list sessW 0 3 mNoUris false none =
      some (.error (.keyError "hba-uris"), mNoUris, 0) := by
  decide

/-- C5 (amended): when the parent's `'hba-uris'` property is present
but falsy (an empty sequence, or None), `list` returns an empty
sequence, raises no error, and makes no further transport call; a
parent with no such property at all instead raises PropertyNotFound. -/
theorem claim5_empty_uris_amended (sess : Session) (now fuel : Nat)
    (m : HbaManager) (fp : Bool) (fa : Option Dict) (v : Value)
    (hv : m.partition.res.properties.find "hba-uris" = some v)
    (hfalsy : v.isTruthy = false) :
    HbaManager.list sess now (fuel + 1) m fp fa = some (.ok [], m, 0) := by
  unfold HbaManager.list BaseResource.get_property
  simp [BaseResource.run, hv, hfalsy]

/-- C5 witness: an empty `'hba-uris'` sequence produces an empty
listing without error. -/
theorem claim5_witness :
    HbaManager.list sessW 0 1 mEmptyUris false none =
      some (.ok [], mEmptyUris, 0) :=
  claim5_empty_uris_amended sessW 0 0 mEmptyUris false none (.vlist []) rfl rfl

/-! ## C8 — frame property of the kind-specific operations -/

/-- C8: `delete`, `update_properties` and `reassign_port` each issue
exactly one transport call and return the resource state unchanged —
`properties`, `full_properties` and `properties_timestamp` (all inside
`Hba.res`) as well as the identity are untouched; the server-side
effect is only observable by re-fetching. -/
theorem claim8_ops_frame (sess : Session) (h : Hba) (properties : Dict)
    (portUri : Value) (s : String) (hs : h.uri = .str s) :
    (Hba.delete sess h).2.1 = h ∧ (Hba.delete sess h).2.2 = 1 ∧
    (Hba.update_properties sess h properties).2.1 = h ∧
    (Hba.update_properties sess h properties).2.2 = 1 ∧
    (Hba.reassign_port sess h portUri).2.1 = h ∧
    (Hba.reassign_port sess h portUri).2.2 = 1 := by
  refine ⟨?_, ?_, ?_, ?_, ?_, ?_⟩
  · unfold Hba.delete; cases sess.sdelete h.uri <;> rfl
  · unfold Hba.delete; cases sess.sdelete h.uri <;> rfl
  · unfold Hba.update_properties; cases sess.post h.uri properties <;> rfl
  · unfold Hba.update_properties; cases sess.post h.uri properties <;> rfl
  · unfold Hba.reassign_port
    rw [hs]
    simp only [Value.addStr]
    cases sess.post (.str (s ++ "/operations/reassign-storage-adapter-port"))
      [("adapter-port-uri", portUri)] <;> rfl
  · unfold Hba.reassign_port
    rw [hs]
    simp only [Value.addStr]
    cases sess.post (.str (s ++ "/operations/reassign-storage-adapter-port"))
      [("adapter-port-uri", portUri)] <;> rfl

/-- C8 witness: the three operations on a concrete HBA. -/
theorem claim8_witness :
    (Hba.delete sessW hFix).2.1 = hFix ∧ (Hba.delete sessW hFix).2.2 = 1 ∧
    (Hba.update_properties sessW hFix []).2.1 = hFix ∧
    (Hba.update_properties sessW hFix []).2.2 = 1 ∧
    (Hba.reassign_port sessW hFix (.str "/p1/ports/7")).2.1 = hFix ∧
    (Hba.reassign_port sessW hFix (.str "/p1/ports/7")).2.2 = 1 :=
  claim8_ops_frame sessW hFix [] (.str "/p1/ports/7") "/p1/hbas/10" rfl

/-! ## C10 — constructor type check -/

/-- C10: `Hba.__init__` with a manager that is not an `HbaManager`
always fails with `AssertionError` (no `Hba` state is produced), so
every successfully constructed `Hba` was given an `HbaManager`. -/
theorem claim10_init_type_check (manager : ManagerArg) (uri : Value)
    (name : Option Value) (properties : Option Dict) (now : Nat) (h : Hba) :
    (manager = .otherManager →
      Hba.init manager uri name properties now = .error .assertionError) ∧
    (Hba.init manager uri name properties now = .ok h →
      manager ≠ .otherManager) := by
  cases manager with
  | hbaManager m =>
    constructor
    · intro hx; cases hx
    · intro _ hx; cases hx
  | otherManager =>
    constructor
    · intro _; rfl
    · intro hx; cases hx

/-- C10 witness: a non-`HbaManager` manager argument is rejected with
`AssertionError`. -/
theorem claim10_witness :
    Hba.init .otherManager (.str "/p1/hbas/10") none none 0 =
      .error .assertionError :=
  (claim10_init_type_check .otherManager (.str "/p1/hbas/10") none none 0 hFix).1 rfl

/-! ## C6 — create merge precedence -/

/-- A key outside a dict's key set is not found. -/
theorem Dict.find_eq_none (d : Dict) (key : String)
    (h : key ∉ d.map Prod.fst) : d.find key = none := by
  induction d with
  | nil => rfl
  | cons a rest ih =>
    obtain ⟨k, v⟩ := a
    simp only [List.map_cons, List.mem_cons, not_or] at h
    rw [Dict.find, if_neg (fun hk => h.1 hk.symm), ih h.2]

/-- Lookup after a single Python dict assignment. -/
theorem Dict.find_insert (d : Dict) (k : String) (v : Value) (key : String) :
    (d.insert k v).find key = if k = key then some v else d.find key := by
  induction d with
  | nil => rfl
  | cons a rest ih =>
    obtain ⟨a1, a2⟩ := a
    rw [Dict.insert]
    by_cases hak : a1 = k
    · rw [if_pos hak]
      subst hak
      simp only [Dict.find]
      by_cases hkey : a1 = key
      · simp only [if_pos hkey]
      · simp only [if_neg hkey]
    · rw [if_neg hak]
      simp only [Dict.find, ih]
      by_cases hkey : a1 = key
      · have hk : ¬k = key := fun hx => hak (hkey.trans hx.symm)
        simp only [if_pos hkey, if_neg hk]
      · simp only [if_neg hkey]

/-- Lookup after `d.update(other)` when `other` has no duplicate keys
(every dict a transport response can be): the value from `other` wins
whenever present, otherwise the original binding survives. -/
theorem Dict.find_update (d other : Dict) (key : String)
    (hnd : other.NodupKeys) :
    (d.update other).find key =
      (match other.find key with
       | some v => some v
       | none => d.find key) := by
  induction other generalizing d with
  | nil => rfl
  | cons a rest ih =>
    obtain ⟨k, v⟩ := a
    have hcons : (List.map Prod.fst ((k, v) :: rest)).Nodup := hnd
    simp only [List.map_cons, List.nodup_cons] at hcons
    have hknotin : k ∉ rest.map Prod.fst := hcons.1
    have hnd' : Dict.NodupKeys rest := hcons.2
    have hstep : Dict.update d ((k, v) :: rest) = Dict.update (d.insert k v) rest := rfl
    rw [hstep, ih (d.insert k v) hnd']
    simp only [Dict.find]
    by_cases hk : k = key
    · subst hk
      rw [Dict.find_eq_none rest k hknotin]
      simp [Dict.find_insert]
    · rw [if_neg hk]
      cases hrk : Dict.find rest key with
      | some w => simp [hrk]
      | none => simp [hrk, Dict.find_insert, if_neg hk]

/-- C6: `create(props)` returns a resource whose property dict is
exactly `props` overlaid by the transport response (`Dict.update`),
and on every key the response's value wins when the key occurs in
both dicts, the input's value surviving otherwise. -/
theorem claim6_create_merge (sess : Session) (now : Nat) (m : HbaManager)
    (properties result : Dict) (path u : Value) (key : String)
    (hpath : Value.addStr m.partition.uri "/hbas" = .ok path)
    (hpost : sess.post path properties = .ok result)
    (hnd : result.NodupKeys)
    (hu : (Dict.update properties result).find "element-uri" = some u) :
    HbaManager.create sess now m properties =
      .ok (Hba.mkBare u none (some (Dict.update properties result)) now) ∧
    (Dict.update properties result).find key =
      (match result.find key with
       | some v => some v
       | none => properties.find key) := by
  constructor
  · unfold HbaManager.create
    rw [hpath]
    simp only [hpost, hu, Hba.init]
  · exact Dict.find_update properties result key hnd

/-- C6 witness: `create({"name": "x"})` with a three-key response
yields a resource holding exactly that three-key mapping, and the
response wins on the colliding key `"name"`. -/
theorem claim6_witness :
    HbaManager.create sessC 4 mC [("name", .str "x")] =
      .ok (Hba.mkBare (.str "/api/partitions/1/hbas/99") none
        (some [("name", .str "x"),
               ("element-uri", .str "/api/partitions/1/hbas/99"),
               ("type", .str "fcp")]) 4) ∧
    Dict.find [("name", .str "x"),
               ("element-uri", .str "/api/partitions/1/hbas/99"),
               ("type", .str "fcp")] "name" = some (.str "x") := by
  have h := claim6_create_merge sessC 4 mC [("name", .str "x")]
    [("element-uri", .str "/api/partitions/1/hbas/99"),
     ("name", .str "x"), ("type", .str "fcp")]
    (.str "/api/partitions/1/hbas") (.str "/api/partitions/1/hbas/99") "name"
    rfl (by decide) (by decide) (by decide)
  exact ⟨h.1, h.2.trans (by decide)⟩

/-! ## C7 — order preservation in list -/

/-- The survivors produced by the listing loop carry, in order, a
subsequence of the iterated URIs. -/
theorem listLoop_sublist (sess : Session) (now fuel : Nat) (m : HbaManager)
    (fp : Bool) (fa : Option Dict) :
    ∀ uris objs k,
      HbaManager.listLoop sess now fuel m fp fa uris = some (.ok objs, k) →
      List.Sublist (objs.map Hba.uri) uris := by
  intro uris
  induction uris with
  | nil =>
    intro objs k h
    simp [HbaManager.listLoop] at h
    simp [h.1]
  | cons uri rest ih =>
    intro objs k h
    rw [HbaManager.listLoop] at h
    simp only [Hba.init] at h
    cases hmf : matches_filters sess now fuel (Hba.mkBare uri none none now).res fa with
    | none => rw [hmf] at h; cases h
    | some res =>
      obtain ⟨res1, r', k1⟩ := res
      rw [hmf] at h
      cases res1 with
      | error e => simp at h
      | ok matched =>
        try simp only [] at h
        cases matched with
        | false =>
          simp only [Bool.false_eq_true, if_false] at h
          cases hrec : HbaManager.listLoop sess now fuel m fp fa rest with
          | none => rw [hrec] at h; cases h
          | some res2 =>
            obtain ⟨res3, k3⟩ := res2
            rw [hrec] at h
            try simp only [] at h
            cases res3 with
            | error e => simp at h
            | ok objs2 =>
              simp at h
              exact List.Sublist.cons uri (h.1 ▸ ih objs2 k3 hrec)
        | true =>
          simp only [if_true] at h
          cases fp with
          | false =>
            simp only [Bool.false_eq_true, if_false] at h
            cases hrec : HbaManager.listLoop sess now fuel m false fa rest with
            | none => rw [hrec] at h; cases h
            | some res2 =>
              obtain ⟨res3, k3⟩ := res2
              rw [hrec] at h
              try simp only [] at h
              cases res3 with
              | error e => simp at h
              | ok objs2 =>
                simp at h
                have hsub := ih objs2 k3 hrec
                rw [← h.1]
                simpa [Hba.mkBare] using List.Sublist.cons₂ uri hsub
          | true =>
            simp only [if_true] at h
            cases hpull : BaseResource.pull_full_properties sess now fuel r' with
            | none => rw [hpull] at h; cases h
            | some resp =>
              obtain ⟨resp1, r'', k2⟩ := resp
              rw [hpull] at h
              cases resp1 with
              | error e => simp at h
              | ok v =>
                try simp only [] at h
                cases hrec : HbaManager.listLoop sess now fuel m true fa rest with
                | none => rw [hrec] at h; cases h
                | some res2 =>
                  obtain ⟨res3, k3⟩ := res2
                  rw [hrec] at h
                  try simp only [] at h
                  cases res3 with
                  | error e => simp at h
                  | ok objs2 =>
                    simp at h
                    have hsub := ih objs2 k3 hrec
                    rw [← h.1]
                    simpa [Hba.mkBare] using List.Sublist.cons₂ uri hsub

/-- C7: whenever `list` returns a result, the returned resources'
identity URIs form, in order, a subsequence of the parent's
`'hba-uris'` sequence — the original URI ordering is preserved modulo
filtered-out entries. -/
theorem claim7_list_order (sess : Session) (now fuel : Nat) (m : HbaManager)
    (fp : Bool) (fa : Option Dict) (uris : List Scalar) (p' : Resource)
    (k0 : Nat) (objs : List Hba) (m' : HbaManager) (k : Nat)
    (huris : BaseResource.get_property sess now fuel m.partition.res "hba-uris" =
      some (.ok (.vlist uris), p', k0))
    (h : HbaManager.list sess now fuel m fp fa = some (.ok objs, m', k)) :
    List.Sublist (objs.map Hba.uri) (uris.map Scalar.toValue) := by
  unfold HbaManager.list at h
  rw [huris] at h
  try simp only [] at h
  by_cases ht : (Value.vlist uris).isTruthy = true
  · rw [if_pos ht] at h
    simp only [Value.iterate] at h
    cases hrec : HbaManager.listLoop sess now fuel
        { partition := { m.partition with res := p' } } fp fa
        (uris.map Scalar.toValue) with
    | none => rw [hrec] at h; cases h
    | some res2 =>
      obtain ⟨res3, k3⟩ := res2
      rw [hrec] at h
      try simp only [] at h
      cases res3 with
      | error e => simp at h
      | ok objs2 =>
        simp at h
        exact h.1 ▸ listLoop_sublist sess now fuel _ fp fa _ objs2 k3 hrec
  · rw [if_neg ht] at h
    simp at h
    simp [h.1]

/-- C7 witness: a concrete two-element listing preserves the parent's
URI order. -/
theorem claim7_witness :
    List.Sublist [Value.str "/p1/hbas/1", Value.str "/p1/hbas/2"]
      [Value.str "/p1/hbas/1", Value.str "/p1/hbas/2"] :=
  claim7_list_order sessW 0 3 mList false none
    [.str "/p1/hbas/1", .str "/p1/hbas/2"] mList.partition.res 0
    [Hba.mkBare (.str "/p1/hbas/1") none none 0,
     Hba.mkBare (.str "/p1/hbas/2") none none 0] mList 0
    (by decide) (by decide)

/-! ## C9 — construction and create copy, never alias, the input dict -/

/-- Writing one cell leaves the store's size alone. -/
theorem Store.length_write (st : Store) (i : Nat) (d : Dict) :
    (st.write i d).cells.length = st.cells.length := by
  simp [Store.write]

/-- Reading a different cell is unaffected by a write. -/
theorem Store.read_write_ne (st : Store) (i j : Nat) (d : Dict) (h : i ≠ j) :
    (st.write i d).read j = st.read j := by
  simp [Store.write, Store.read, List.getElem?_set_ne h]

/-- Reading back a written cell. -/
theorem Store.read_write_eq (st : Store) (i : Nat) (d : Dict)
    (h : i < st.cells.length) : (st.write i d).read i = d := by
  simp [Store.write, Store.read, List.getElem?_set_eq_of_lt d h]

/-- Allocation does not disturb existing cells. -/
theorem Store.read_alloc_old (st : Store) (d : Dict) (j : Nat)
    (h : j < st.cells.length) : (st.alloc d).1.read j = st.read j := by
  simp [Store.alloc, Store.read, List.getElem?_append_left h]

/-- Reading the freshly allocated cell. -/
theorem Store.read_alloc_new (st : Store) (d : Dict) :
    (st.alloc d).1.read (st.alloc d).2 = d := by
  simp [Store.alloc, Store.read, List.getElem?_concat_length]

/-- Explicit store produced by a successful heap-level create. -/
theorem createH_ok_spec (sess : Session) (m : HbaManager) (st : Store)
    (propsRef : Nat) (path : Value) (result : Dict) (u : Value)
    (ha : Value.addStr m.partition.uri "/hbas" = .ok path)
    (hp : sess.post path (st.read propsRef) = .ok result)
    (hfind : (Dict.update (st.read propsRef) result).find "element-uri" = some u) :
    HbaManager.createH sess m st propsRef =
      (⟨((st.cells ++ [st.read propsRef]).set st.cells.length
           (Dict.update (st.read propsRef) result)) ++
         [Dict.update (st.read propsRef) result]⟩,
       .ok (st.cells.length + 1)) := by
  have hlen : (st.alloc (st.read propsRef)).2 <
      (st.alloc (st.read propsRef)).1.cells.length := by
    simp [Store.alloc]
  unfold HbaManager.createH
  rw [ha]
  try simp only []
  rw [hp]
  try simp only []
  rw [Store.read_alloc_new st (st.read propsRef)]
  rw [Store.read_write_eq _ _ _ hlen]
  rw [hfind]
  try simp only []
  unfold BaseResource.initH
  rw [Store.read_write_eq _ _ _ hlen]
  simp [Store.alloc, Store.write, List.length_set, List.length_append]

/-- C9: both construction and `create` copy the caller-supplied dict
rather than aliasing it.  On a successful heap-level `create` from a
valid input reference: the caller's dict is unchanged, the new
resource's `_properties` is a different heap object, and overwriting
the caller's dict afterwards leaves the resource's dict unread-
changed; likewise `BaseResource.__init__`'s `dict(properties)` copy
gives the resource a fresh cell unaffected by later writes to the
input. -/
theorem claim9_create_copies (sess : Session) (m : HbaManager) (st : Store)
    (propsRef : Nat) (st' : Store) (resRef : Nat) (d : Dict)
    (hvalid : propsRef < st.cells.length)
    (hok : HbaManager.createH sess m st propsRef = (st', .ok resRef)) :
    st'.read propsRef = st.read propsRef ∧
    resRef ≠ propsRef ∧
    (st'.write propsRef d).read resRef = st'.read resRef ∧
    (BaseResource.initH st propsRef).2 ≠ propsRef ∧
    ((BaseResource.initH st propsRef).1.write propsRef d).read
        (BaseResource.initH st propsRef).2 =
      (BaseResource.initH st propsRef).1.read (BaseResource.initH st propsRef).2 := by
  cases ha : Value.addStr m.partition.uri "/hbas" with
  | error e =>
    unfold HbaManager.createH at hok
    rw [ha] at hok
    simp at hok
  | ok path =>
    cases hp : sess.post path (st.read propsRef) with
    | error te =>
      unfold HbaManager.createH at hok
      rw [ha] at hok
      try simp only [] at hok
      rw [hp] at hok
      simp at hok
    | ok result =>
      cases hfind : (Dict.update (st.read propsRef) result).find "element-uri" with
      | none =>
        unfold HbaManager.createH at hok
        rw [ha] at hok
        try simp only [] at hok
        rw [hp] at hok
        try simp only [] at hok
        rw [Store.read_alloc_new st (st.read propsRef)] at hok
        rw [Store.read_write_eq _ _ _ (by simp [Store.alloc])] at hok
        rw [hfind] at hok
        simp at hok
      | some u =>
        have hspec := createH_ok_spec sess m st propsRef path result u ha hp hfind
        rw [hspec] at hok
        have hst : st' =
            ⟨((st.cells ++ [st.read propsRef]).set st.cells.length
                (Dict.update (st.read propsRef) result)) ++
              [Dict.update (st.read propsRef) result]⟩ :=
          (congrArg Prod.fst hok).symm
        have hres : resRef = st.cells.length + 1 := by
          have hx := congrArg Prod.snd hok
          simp at hx
          exact hx.symm
        subst hst
        subst hres
        refine ⟨?_, ?_, ?_, ?_, ?_⟩
        · simp only [Store.read, List.get?_eq_getElem?]
          rw [List.getElem?_append_left
                (by simp only [List.length_set, List.length_append,
                      List.length_singleton]; omega),
              List.getElem?_set_ne (by omega),
              List.getElem?_append_left hvalid]
        · omega
        · exact Store.read_write_ne _ _ _ d (by omega)
        · simp only [BaseResource.initH, Store.alloc]
          omega
        · exact Store.read_write_ne _ _ _ d
            (by simp only [BaseResource.initH, Store.alloc]; omega)

/-- C9 witness: a concrete heap-level create; the caller's cell 0 is
untouched, the resource's dict lives in the fresh cell 2, and writing
cell 0 afterwards does not change cell 2. -/
theorem claim9_witness :
    (⟨[[("name", Value.str "x")], dictW, dictW]⟩ : Store).read 0 = stW.read 0 ∧
    (2 : Nat) ≠ 0 ∧
    ((⟨[[("name", Value.str "x")], dictW, dictW]⟩ : Store).write 0 []).read 2 =
      (⟨[[("name", Value.str "x")], dictW, dictW]⟩ : Store).read 2 ∧
    (BaseResource.initH stW 0).2 ≠ 0 ∧
    ((BaseResource.initH stW 0).1.write 0 []).read (BaseResource.initH stW 0).2 =
      (BaseResource.initH stW 0).1.read (BaseResource.initH stW 0).2 :=
  claim9_create_copies sessC mC stW 0
    ⟨[[("name", Value.str "x")], dictW, dictW]⟩ 2 []
    (by decide) (by decide)
